import Mathlib

/-!
Verification development for the coffee-shop management application.

The repository ships only the React frontend; the Flask backend that holds
the unit-conversion and costing engine is referenced throughout the spec but
its source is not present. Definitions for that engine are therefore
modelled from the spec (each such definition says so in its doc comment),
while the unit-compatibility helpers of the Inventory and MenuItems pages
are translated directly from the frontend source. Quantities and monetary
amounts are modelled as rationals (exact arithmetic in place of IEEE
floats).
-/

namespace CoffeeShop

/-- Modelled from the spec: the backend unit registry is missing from the
sources; the spec fixes the seven unit symbols g, kg, ml, l, pcs, bottles,
packs. -/
inductive MUnit where
  | g
  | kg
  | ml
  | l
  | pcs
  | bottles
  | packs
deriving DecidableEq, Repr

/-- Modelled from the spec: each unit's base-unit class; classes are
{g, kg} (base g), {ml, l} (base ml), and the singletons pcs, bottles,
packs. -/
def baseUnit : MUnit → MUnit
  | .g => .g
  | .kg => .g
  | .ml => .ml
  | .l => .ml
  | .pcs => .pcs
  | .bottles => .bottles
  | .packs => .packs

/-- Modelled from the spec: multiplicative factor converting a quantity in
this unit to the base unit (kg to g is 1000, l to ml is 1000, singleton
classes have factor 1). -/
def factor : MUnit → ℚ
  | .g => 1
  | .kg => 1000
  | .ml => 1
  | .l => 1000
  | .pcs => 1
  | .bottles => 1
  | .packs => 1

/-- Modelled from the spec: error kinds of the missing backend engine
(section 7 of the spec). -/
inductive CostError where
  | incompatibleUnits
  | unknownIngredient
  | insufficientStock
  | invalidQuantity
deriving DecidableEq, Repr

/-- Modelled from the spec: the backend convert function is missing from
the sources; it succeeds only when both units share a base-unit class and
then returns quantity times factor of the source unit divided by factor of
the target unit. -/
def convert (quantity : ℚ) (fromUnit toUnit : MUnit) : Except CostError ℚ :=
  if baseUnit fromUnit = baseUnit toUnit then
    Except.ok (quantity * factor fromUnit / factor toUnit)
  else
    Except.error CostError.incompatibleUnits

/-- A unit choice offered by the frontend selection widgets: value symbol,
display label and base-unit symbol, as in the units arrays of
Inventory.js and MenuItems. -/
structure UnitOpt where
  value : String
  label : String
  baseUnit : String
deriving DecidableEq, Repr

/-- The seven-entry units array of Inventory.js (lines 52-60). -/
def invUnits : List UnitOpt :=
  [ ⟨"g", "Grams (g)", "g"⟩,
    ⟨"kg", "Kilograms (kg)", "g"⟩,
    ⟨"ml", "Milliliters (ml)", "ml"⟩,
    ⟨"l", "Liters (l)", "ml"⟩,
    ⟨"pcs", "Pieces", "pcs"⟩,
    ⟨"bottles", "Bottles", "bottles"⟩,
    ⟨"packs", "Packs", "packs"⟩ ]

/-- getCompatibleUnits of Inventory.js (lines 62-67): an empty unit symbol
or one absent from the table yields the whole table, otherwise the units
sharing the selected unit's base. -/
def invGetCompatibleUnits (unit : String) : List UnitOpt :=
  if unit = "" then invUnits
  else
    match invUnits.find? (fun u => u.value == unit) with
    | none => invUnits
    | some selectedUnit => invUnits.filter (fun u => u.baseUnit == selectedUnit.baseUnit)

/-- The five-entry units array of the MenuItems page (lines 47-53): no
bottles and no packs entries. -/
def menuUnits : List UnitOpt :=
  [ ⟨"g", "Grams (g)", "g"⟩,
    ⟨"kg", "Kilograms (kg)", "g"⟩,
    ⟨"ml", "Milliliters (ml)", "ml"⟩,
    ⟨"l", "Liters (l)", "ml"⟩,
    ⟨"pcs", "Pieces", "pcs"⟩ ]

/-- An ingredient as seen by the MenuItems page: id and stock unit symbol
(the only fields its getCompatibleUnits reads). -/
structure MenuIngredient where
  id : Nat
  stock_unit : String
deriving DecidableEq, Repr

/-- The base-unit computation of MenuItems getCompatibleUnits
(lines 160-162): kg maps to g, l maps to ml, anything else to itself. -/
def menuBase (stock_unit : String) : String :=
  if stock_unit = "kg" then "g"
  else if stock_unit = "l" then "ml"
  else stock_unit

/-- getCompatibleUnits of the MenuItems page (lines 156-165): when the
recipe line's ingredient id matches no loaded ingredient the full units
list is returned, otherwise the units whose base equals the ingredient's
stock-unit base. -/
def menuGetCompatibleUnits (ingredients : List MenuIngredient) (ingredientId : Nat) :
    List UnitOpt :=
  match ingredients.find? (fun i => i.id == ingredientId) with
  | none => menuUnits
  | some ingredient => menuUnits.filter (fun u => u.baseUnit == menuBase ingredient.stock_unit)

/-- Modelled from the spec: an ingredient record of the missing backend
(section 6 of the spec): id, name, current stock in the stock unit,
minimum alert threshold in a threshold unit, and cost per stock unit. -/
structure Ingredient where
  id : Nat
  name : String
  current_stock : ℚ
  stock_unit : MUnit
  min_threshold : ℚ
  threshold_unit : MUnit
  cost_per_unit : ℚ
deriving DecidableEq, Repr

/-- Modelled from the spec: a recipe line of a menu item (ingredient
reference, quantity, unit). -/
structure RecipeLine where
  ingredient_id : Nat
  quantity : ℚ
  unit : MUnit
deriving DecidableEq, Repr

/-- Modelled from the spec: a menu item record (id, name, category,
selling price, ordered list of recipe lines). -/
structure MenuItem where
  id : Nat
  name : String
  category : String
  selling_price : ℚ
  ingredients : List RecipeLine
deriving DecidableEq, Repr

/-- Ingredient lookup by id over an ingredient collection. -/
def findIngredient (ingredients : List Ingredient) (ingredientId : Nat) : Option Ingredient :=
  ingredients.find? (fun i => i.id == ingredientId)

/-- Modelled from the spec: the recipe-cost fold of the missing backend.
For each line it resolves the ingredient (UnknownIngredientError when
absent), converts the line quantity into the ingredient's stock unit
(IncompatibleUnitsError when the classes differ), multiplies by the
cost per unit and sums. -/
def linesCost (lines : List RecipeLine) (ingredients : List Ingredient) :
    Except CostError ℚ :=
  match lines with
  | [] => Except.ok 0
  | line :: rest =>
    match findIngredient ingredients line.ingredient_id with
    | none => Except.error CostError.unknownIngredient
    | some ing =>
      match convert line.quantity line.unit ing.stock_unit with
      | Except.error e => Except.error e
      | Except.ok q =>
        match linesCost rest ingredients with
        | Except.error e => Except.error e
        | Except.ok s => Except.ok (q * ing.cost_per_unit + s)

/-- Modelled from the spec: recipeCost of the missing backend engine. -/
def recipeCost (item : MenuItem) (ingredients : List Ingredient) : Except CostError ℚ :=
  linesCost item.ingredients ingredients

/-- The mathematical per-line contribution the spec describes: line
quantity converted to the referenced ingredient's stock unit times that
ingredient's cost per unit (zero for an unresolvable line). -/
def lineContrib (ingredients : List Ingredient) (line : RecipeLine) : ℚ :=
  match findIngredient ingredients line.ingredient_id with
  | some ing => line.quantity * factor line.unit / factor ing.stock_unit * ing.cost_per_unit
  | none => 0

/-- Profit figures attached to a menu item: amount and percentage. -/
structure ProfitR where
  amount : ℚ
  percentage : ℚ
deriving DecidableEq, Repr

/-- Modelled from the spec: profit of the missing backend engine; amount
is selling price minus cost and the percentage falls back to zero for a
non-positive selling price, so no division by zero occurs. -/
def profit (item : MenuItem) (cost : ℚ) : ProfitR :=
  { amount := item.selling_price - cost,
    percentage :=
      if 0 < item.selling_price then (item.selling_price - cost) / item.selling_price * 100
      else 0 }

/-- Modelled from the spec: applyStockUpdate of the missing backend;
rejects a negative quantity with InvalidQuantityError, converts the added
quantity to the ingredient's stock unit and adds it to the current
stock. -/
def applyStockUpdate (ing : Ingredient) (addedQuantity : ℚ) (unit : MUnit) :
    Except CostError Ingredient :=
  if addedQuantity < 0 then Except.error CostError.invalidQuantity
  else
    match convert addedQuantity unit ing.stock_unit with
    | Except.error e => Except.error e
    | Except.ok c => Except.ok { ing with current_stock := ing.current_stock + c }

/-- Modelled from the spec: reverseStockUpdate of the missing backend,
the compensating subtraction run when a stock-update record is deleted;
per sections 3, 7 and 9 of the spec a deduction that would drive the
stock negative is rejected with InsufficientStockError. -/
def reverseStockUpdate (ing : Ingredient) (addedQuantity : ℚ) (unit : MUnit) :
    Except CostError Ingredient :=
  if addedQuantity < 0 then Except.error CostError.invalidQuantity
  else
    match convert addedQuantity unit ing.stock_unit with
    | Except.error e => Except.error e
    | Except.ok c =>
      if ing.current_stock - c < 0 then Except.error CostError.insufficientStock
      else Except.ok { ing with current_stock := ing.current_stock - c }

/-- Replace the current stock of every ingredient carrying the given id. -/
def updateIngredient (ingredients : List Ingredient) (ingredientId : Nat) (newStock : ℚ) :
    List Ingredient :=
  ingredients.map (fun i => if i.id == ingredientId then { i with current_stock := newStock } else i)

/-- Modelled from the spec: one recipe line's deduction during a sale;
resolves the ingredient, converts line quantity times sale quantity to the
stock unit and deducts, rejecting with InsufficientStockError when the
stock would go negative (policy of sections 7 and 9 of the spec). -/
def deductLine (ingredients : List Ingredient) (line : RecipeLine) (saleQuantity : ℚ) :
    Except CostError (List Ingredient) :=
  match findIngredient ingredients line.ingredient_id with
  | none => Except.error CostError.unknownIngredient
  | some ing =>
    match convert (line.quantity * saleQuantity) line.unit ing.stock_unit with
    | Except.error e => Except.error e
    | Except.ok dq =>
      if ing.current_stock - dq < 0 then Except.error CostError.insufficientStock
      else Except.ok (updateIngredient ingredients line.ingredient_id (ing.current_stock - dq))

/-- Modelled from the spec: the per-line fold of applySaleToStock. -/
def applyLines (lines : List RecipeLine) (saleQuantity : ℚ) (ingredients : List Ingredient) :
    Except CostError (List Ingredient) :=
  match lines with
  | [] => Except.ok ingredients
  | line :: rest =>
    match deductLine ingredients line saleQuantity with
    | Except.error e => Except.error e
    | Except.ok ingredients1 => applyLines rest saleQuantity ingredients1

/-- Modelled from the spec: applySaleToStock of the missing backend. -/
def applySaleToStock (item : MenuItem) (saleQuantity : ℚ) (ingredients : List Ingredient) :
    Except CostError (List Ingredient) :=
  applyLines item.ingredients saleQuantity ingredients

/-- The deduction one recipe line causes on a stock kept in the given
stock unit: line quantity times sale quantity converted to that unit. -/
def lineDeduction (line : RecipeLine) (saleQuantity : ℚ) (stockUnit : MUnit) : ℚ :=
  line.quantity * saleQuantity * factor line.unit / factor stockUnit

/-- Total deduction a sale causes on the ingredient with the given id and
stock unit: the sum of the deductions of the lines referencing it. -/
def sumDeductions (lines : List RecipeLine) (saleQuantity : ℚ) (ingredientId : Nat)
    (stockUnit : MUnit) : ℚ :=
  ((lines.filter (fun l => l.ingredient_id == ingredientId)).map
    (fun l => lineDeduction l saleQuantity stockUnit)).sum

/-- Modelled from the spec: the reporting period of the missing backend
aggregation endpoint. -/
inductive Period where
  | daily
  | weekly
  | monthly
deriving DecidableEq, Repr

/-- A calendar timestamp at hour resolution (year, month 1-12, day of
month 1-31, hour 0-23), the granularity bucketAggregate needs. -/
structure Timestamp where
  year : Nat
  month : Nat
  day : Nat
  hour : Nat
deriving DecidableEq, Repr

/-- Gregorian leap-year rule. -/
def isLeap (y : Nat) : Bool :=
  (y % 4 == 0 && y % 100 != 0) || y % 400 == 0

/-- Length of a calendar month. -/
def daysInMonth (y m : Nat) : Nat :=
  if m = 2 then (if isLeap y then 29 else 28)
  else if m = 4 ∨ m = 6 ∨ m = 9 ∨ m = 11 then 30
  else 31

/-- Absolute day number of the first day of a calendar month on a
proleptic Gregorian day line (day 0 is 0000-03-01, the standard
civil-calendar decomposition). -/
def monthAnchor (y m : Nat) : Nat :=
  let yShift := if m ≤ 2 then y - 1 else y
  let era := yShift / 400
  let yoe := yShift % 400
  let mp := (m + 9) % 12
  era * 146097 + (yoe * 365 + yoe / 4 - yoe / 100) + (153 * mp + 2) / 5

/-- Absolute day number of a calendar date. -/
def absDay (y m d : Nat) : Nat :=
  monthAnchor y m + (d - 1)

/-- Day of week of an absolute day number, Sunday = 0. -/
def dayOfWeek (a : Nat) : Nat :=
  (a + 3) % 7

/-- First day (Sunday) of the week containing the given timestamp. -/
def weekStartAbs (ts : Timestamp) : Nat :=
  let a := absDay ts.year ts.month ts.day
  a - dayOfWeek a

/-- Modelled from the spec: a sales or stock-update record as the missing
aggregation endpoint consumes it: timestamp plus revenue and cost fields
(profit is revenue minus cost). -/
structure FinRecord where
  ts : Timestamp
  revenue : ℚ
  cost : ℚ
deriving DecidableEq, Repr

/-- One output bucket of bucketAggregate: bucket start as an absolute
hour number (absolute day times 24 plus hour) and the three sums. -/
structure Bucket where
  start : Nat
  revenue : ℚ
  cost : ℚ
  profit : ℚ
deriving DecidableEq, Repr

/-- Modelled from the spec: number of bucket slots of a period anchored at
a reference date; 24 hour slots for daily, the 7 days of the Sunday-aligned
week for weekly, the days of the calendar month for monthly. -/
def numSlots (p : Period) (ref : Timestamp) : Nat :=
  match p with
  | .daily => 24
  | .weekly => 7
  | .monthly => daysInMonth ref.year ref.month

/-- Modelled from the spec: start (absolute hour number) of slot i of a
period anchored at the reference date. -/
def slotStart (p : Period) (ref : Timestamp) (i : Nat) : Nat :=
  match p with
  | .daily => absDay ref.year ref.month ref.day * 24 + i
  | .weekly => (weekStartAbs ref + i) * 24
  | .monthly => absDay ref.year ref.month (1 + i) * 24

/-- Modelled from the spec: the slot a record falls into for the given
period and reference date, none when its timestamp is outside the period's
range. -/
def recordSlot (p : Period) (ref : Timestamp) (r : FinRecord) : Option Nat :=
  match p with
  | .daily =>
    if r.ts.year = ref.year ∧ r.ts.month = ref.month ∧ r.ts.day = ref.day ∧ r.ts.hour < 24 then
      some r.ts.hour
    else none
  | .weekly =>
    let w := weekStartAbs ref
    let a := absDay r.ts.year r.ts.month r.ts.day
    if w ≤ a ∧ a < w + 7 then some (a - w) else none
  | .monthly =>
    if r.ts.year = ref.year ∧ r.ts.month = ref.month ∧
        1 ≤ r.ts.day ∧ r.ts.day ≤ daysInMonth ref.year ref.month then
      some (r.ts.day - 1)
    else none

/-- Modelled from the spec: bucketAggregate of the missing backend
aggregation endpoint; one bucket per slot in chronological order, each
summing revenue, cost and profit of the records falling into it. -/
def bucketAggregate (records : List FinRecord) (p : Period) (ref : Timestamp) :
    List Bucket :=
  (List.range (numSlots p ref)).map (fun i =>
    let inBucket := records.filter (fun r => recordSlot p ref r == some i)
    { start := slotStart p ref i,
      revenue := (inBucket.map (fun r => r.revenue)).sum,
      cost := (inBucket.map (fun r => r.cost)).sum,
      profit := (inBucket.map (fun r => r.revenue - r.cost)).sum })

/-! Helper lemmas. -/

theorem factor_pos (u : MUnit) : 0 < factor u := by
  cases u <;> norm_num [factor]

theorem convert_ok_of_compat (q : ℚ) {u v : MUnit} (h : baseUnit u = baseUnit v) :
    convert q u v = Except.ok (q * factor u / factor v) := by
  simp [convert, h]

theorem convert_err_of_incompat (q : ℚ) {u v : MUnit} (h : baseUnit u ≠ baseUnit v) :
    convert q u v = Except.error CostError.incompatibleUnits := by
  simp [convert, h]

/-! Claim theorems. -/

/-- C5: convert(q, fromUnit, toUnit) succeeds exactly when the two units
share a base-unit class, in which case the result is q times
factor(fromUnit) divided by factor(toUnit); otherwise it fails with
IncompatibleUnitsError, as convert(5, g, ml) does. -/
theorem convert_characterization (q : ℚ) (u v : MUnit) :
    (convert q u v = Except.ok (q * factor u / factor v) ∨
      convert q u v = Except.error CostError.incompatibleUnits) ∧
    ((∃ r, convert q u v = Except.ok r) ↔ baseUnit u = baseUnit v) ∧
    (convert q u v = Except.error CostError.incompatibleUnits ↔ baseUnit u ≠ baseUnit v) ∧
    convert 5 MUnit.g MUnit.ml = Except.error CostError.incompatibleUnits := by
  refine ⟨?_, ?_, ?_, ?_⟩
  · by_cases h : baseUnit u = baseUnit v
    · exact Or.inl (convert_ok_of_compat q h)
    · exact Or.inr (convert_err_of_incompat q h)
  · constructor
    · rintro ⟨r, hr⟩
      by_contra h
      rw [convert_err_of_incompat q h] at hr
      exact absurd hr (by simp)
    · intro h
      exact ⟨_, convert_ok_of_compat q h⟩
  · constructor
    · intro h
      by_contra hb
      rw [convert_ok_of_compat q hb] at h
      exact absurd h (by simp)
    · exact convert_err_of_incompat q
  · exact convert_err_of_incompat 5 (by simp [baseUnit])

/-- C7: for base-compatible units, converting a quantity there and back
restores it exactly (over exact rational arithmetic). -/
theorem convert_roundTrip (q : ℚ) (u v : MUnit) (h : baseUnit u = baseUnit v) :
    ∃ r, convert q u v = Except.ok r ∧ convert r v u = Except.ok q := by
  refine ⟨q * factor u / factor v, convert_ok_of_compat q h, ?_⟩
  rw [convert_ok_of_compat _ h.symm]
  have hu := (factor_pos u).ne'
  have hv := (factor_pos v).ne'
  congr 1
  field_simp

/-- Witness for C7 at kg and g with quantity 7. -/
theorem convert_roundTrip_witness :
    ∃ r, convert 7 MUnit.kg MUnit.g = Except.ok r ∧
      convert r MUnit.g MUnit.kg = Except.ok 7 :=
  convert_roundTrip 7 MUnit.kg MUnit.g rfl

/-- C2: profit amount is selling price minus cost; the percentage is
amount over selling price times 100 for a positive selling price and 0
for a zero selling price whatever the cost, so no division by zero ever
occurs; selling price 60 with cost 10 gives amount 50 and percentage
250/3, which is 83.33 to two decimals. -/
theorem profit_correct (item item0 : MenuItem) (cost : ℚ)
    (hpos : 0 < item.selling_price) (h0 : item0.selling_price = 0) :
    (profit item cost).amount = item.selling_price - cost ∧
    (profit item cost).percentage = (item.selling_price - cost) / item.selling_price * 100 ∧
    (∀ c : ℚ, (profit item0 c).amount = item0.selling_price - c ∧
      (profit item0 c).percentage = 0) ∧
    (profit ⟨1, "Latte", "Hot Coffee", 60, []⟩ 10).amount = 50 ∧
    (profit ⟨1, "Latte", "Hot Coffee", 60, []⟩ 10).percentage = 250 / 3 ∧
    |(profit ⟨1, "Latte", "Hot Coffee", 60, []⟩ 10).percentage - 8333 / 100| ≤ 1 / 200 := by
  refine ⟨rfl, ?_, ?_, ?_, ?_, ?_⟩
  · simp [profit, hpos]
  · intro c
    refine ⟨rfl, ?_⟩
    simp [profit, h0]
  · norm_num [profit]
  · norm_num [profit]
  · have hp : (profit ⟨1, "Latte", "Hot Coffee", 60, []⟩ 10).percentage = 250 / 3 := by
      norm_num [profit]
    rw [hp]
    rw [abs_le]
    norm_num

/-- Witness for C2 at a 60-priced and a 0-priced menu item. -/
theorem profit_correct_witness :
    (profit ⟨1, "Latte", "Hot Coffee", 60, []⟩ 10).amount = 60 - 10 ∧
    (profit ⟨1, "Latte", "Hot Coffee", 60, []⟩ 10).percentage = (60 - 10) / 60 * 100 ∧
    (∀ c : ℚ, (profit ⟨2, "Water", "Other", 0, []⟩ c).amount = 0 - c ∧
      (profit ⟨2, "Water", "Other", 0, []⟩ c).percentage = 0) ∧
    (profit ⟨1, "Latte", "Hot Coffee", 60, []⟩ 10).amount = 50 ∧
    (profit ⟨1, "Latte", "Hot Coffee", 60, []⟩ 10).percentage = 250 / 3 ∧
    |(profit ⟨1, "Latte", "Hot Coffee", 60, []⟩ 10).percentage - 8333 / 100| ≤ 1 / 200 :=
  profit_correct ⟨1, "Latte", "Hot Coffee", 60, []⟩ ⟨2, "Water", "Other", 0, []⟩ 10
    (by norm_num) rfl

theorem linesCost_eq_sum (ings : List Ingredient) (lines : List RecipeLine)
    (h : ∀ l ∈ lines, ∃ ing, findIngredient ings l.ingredient_id = some ing ∧
      baseUnit l.unit = baseUnit ing.stock_unit) :
    linesCost lines ings = Except.ok ((lines.map (lineContrib ings)).sum) := by
  induction lines with
  | nil => simp [linesCost]
  | cons line rest ih =>
    obtain ⟨ing, hfind, hcompat⟩ := h line (List.mem_cons_self line rest)
    have hrest := ih (fun l hl => h l (List.mem_cons_of_mem line hl))
    simp only [linesCost, hfind, convert_ok_of_compat _ hcompat, hrest, List.map_cons,
      List.sum_cons]
    simp [lineContrib, hfind]

/-- C1: when every recipe line of a menu item resolves to an existing
ingredient with a base-compatible unit, recipeCost is the sum over the
lines of the line quantity converted into the referenced ingredient's
stock unit times that ingredient's cost per unit; a 200 ml line against
an ingredient stocked in litres at cost 50 per litre contributes exactly
10. -/
theorem recipeCost_eq_sum (item : MenuItem) (ings : List Ingredient)
    (h : ∀ l ∈ item.ingredients, ∃ ing, findIngredient ings l.ingredient_id = some ing ∧
      baseUnit l.unit = baseUnit ing.stock_unit) :
    recipeCost item ings = Except.ok ((item.ingredients.map (lineContrib ings)).sum) ∧
    lineContrib [⟨1, "Milk", 5, MUnit.l, 1, MUnit.l, 50⟩] ⟨1, 200, MUnit.ml⟩ = 10 := by
  refine ⟨linesCost_eq_sum ings item.ingredients h, ?_⟩
  norm_num [lineContrib, findIngredient, List.find?, factor]

/-- Witness for C1: a latte whose single line is 200 ml of milk stocked
in litres at 50 per litre costs exactly 10. -/
theorem recipeCost_eq_sum_witness :
    recipeCost ⟨1, "Latte", "Hot Coffee", 60, [⟨1, 200, MUnit.ml⟩]⟩
      [⟨1, "Milk", 5, MUnit.l, 1, MUnit.l, 50⟩] = Except.ok 10 := by
  have h := recipeCost_eq_sum ⟨1, "Latte", "Hot Coffee", 60, [⟨1, 200, MUnit.ml⟩]⟩
    [⟨1, "Milk", 5, MUnit.l, 1, MUnit.l, 50⟩] ?_
  · rw [h.1]
    norm_num [lineContrib, findIngredient, List.find?, factor]
  · intro l hl
    simp only [List.mem_singleton] at hl
    subst hl
    exact ⟨⟨1, "Milk", 5, MUnit.l, 1, MUnit.l, 50⟩, rfl, rfl⟩

/-- C8: for a nonnegative starting stock, a nonnegative added quantity and
a base-compatible unit, applyStockUpdate adds exactly the converted
quantity and the subsequent reverseStockUpdate for the same record
subtracts that same converted quantity, restoring the ingredient to its
original value. -/
theorem stockUpdate_roundTrip (ing : Ingredient) (q : ℚ) (u : MUnit)
    (hstock : 0 ≤ ing.current_stock) (hq : 0 ≤ q)
    (hcompat : baseUnit u = baseUnit ing.stock_unit) :
    ∃ ing1, applyStockUpdate ing q u = Except.ok ing1 ∧
      ing1.current_stock = ing.current_stock + q * factor u / factor ing.stock_unit ∧
      reverseStockUpdate ing1 q u = Except.ok ing := by
  have hnn : ¬ q < 0 := not_lt.mpr hq
  refine ⟨{ ing with
    current_stock := ing.current_stock + q * factor u / factor ing.stock_unit }, ?_, rfl, ?_⟩
  · simp [applyStockUpdate, hnn, convert_ok_of_compat _ hcompat]
  · simp only [reverseStockUpdate, if_neg hnn, convert_ok_of_compat _ hcompat]
    rw [add_sub_cancel_right, if_neg (not_lt.mpr hstock)]

/-- Witness for C8: adding 500 ml to 5 litres of milk and deleting the
record restores the 5 litres. -/
theorem stockUpdate_roundTrip_witness :
    ∃ ing1, applyStockUpdate ⟨1, "Milk", 5, MUnit.l, 1, MUnit.l, 50⟩ 500 MUnit.ml =
        Except.ok ing1 ∧
      ing1.current_stock = 5 + 500 * factor MUnit.ml / factor MUnit.l ∧
      reverseStockUpdate ing1 500 MUnit.ml =
        Except.ok ⟨1, "Milk", 5, MUnit.l, 1, MUnit.l, 50⟩ :=
  stockUpdate_roundTrip ⟨1, "Milk", 5, MUnit.l, 1, MUnit.l, 50⟩ 500 MUnit.ml
    (by norm_num) (by norm_num) rfl

theorem convert_ok_inv {q c : ℚ} {u v : MUnit} (h : convert q u v = Except.ok c) :
    c = q * factor u / factor v ∧ baseUnit u = baseUnit v := by
  by_cases hb : baseUnit u = baseUnit v
  · rw [convert_ok_of_compat q hb] at h
    injection h with h
    exact ⟨h.symm, hb⟩
  · rw [convert_err_of_incompat q hb] at h
    exact absurd h (by simp)

theorem deductLine_nonneg {ings ings1 : List Ingredient} {line : RecipeLine} {q : ℚ}
    (h : deductLine ings line q = Except.ok ings1)
    (hpos : ∀ i ∈ ings, 0 ≤ i.current_stock) : ∀ i ∈ ings1, 0 ≤ i.current_stock := by
  unfold deductLine at h
  cases hf : findIngredient ings line.ingredient_id with
  | none =>
    simp only [hf] at h
    exact absurd h (by simp)
  | some ing =>
    simp only [hf] at h
    cases hc : convert (line.quantity * q) line.unit ing.stock_unit with
    | error e =>
      simp only [hc] at h
      exact absurd h (by simp)
    | ok dq =>
      simp only [hc] at h
      by_cases hneg : ing.current_stock - dq < 0
      · rw [if_pos hneg] at h
        exact absurd h (by simp)
      · rw [if_neg hneg] at h
        injection h with h
        subst h
        intro i hi
        rcases List.mem_map.mp hi with ⟨j, hj, rfl⟩
        by_cases hid : (j.id == line.ingredient_id) = true
        · rw [if_pos hid]
          exact not_lt.mp hneg
        · rw [if_neg hid]
          exact hpos j hj

theorem applyLines_nonneg (lines : List RecipeLine) (q : ℚ) :
    ∀ ings ings', applyLines lines q ings = Except.ok ings' →
      (∀ i ∈ ings, 0 ≤ i.current_stock) → ∀ i ∈ ings', 0 ≤ i.current_stock := by
  induction lines with
  | nil =>
    intro ings ings' h hpos
    unfold applyLines at h
    injection h with h
    exact h ▸ hpos
  | cons line rest ih =>
    intro ings ings' h hpos
    unfold applyLines at h
    cases hd : deductLine ings line q with
    | error e =>
      simp only [hd] at h
      exact absurd h (by simp)
    | ok ings1 =>
      simp only [hd] at h
      exact ih ings1 ings' h (deductLine_nonneg hd hpos)

theorem applyStockUpdate_nonneg {ing ing1 : Ingredient} {qa : ℚ} {ua : MUnit}
    (h : applyStockUpdate ing qa ua = Except.ok ing1) (hing : 0 ≤ ing.current_stock) :
    0 ≤ ing1.current_stock := by
  unfold applyStockUpdate at h
  by_cases hq : qa < 0
  · rw [if_pos hq] at h
    exact absurd h (by simp)
  · rw [if_neg hq] at h
    cases hc : convert qa ua ing.stock_unit with
    | error e =>
      simp only [hc] at h
      exact absurd h (by simp)
    | ok c =>
      simp only [hc] at h
      injection h with h
      subst h
      have hcv := (convert_ok_inv hc).1
      have hcpos : 0 ≤ c := by
        rw [hcv]
        exact div_nonneg (mul_nonneg (not_lt.mp hq) (factor_pos ua).le) (factor_pos _).le
      exact add_nonneg hing hcpos

theorem reverseStockUpdate_nonneg {ing ing2 : Ingredient} {qr : ℚ} {ur : MUnit}
    (h : reverseStockUpdate ing qr ur = Except.ok ing2) : 0 ≤ ing2.current_stock := by
  unfold reverseStockUpdate at h
  by_cases hq : qr < 0
  · rw [if_pos hq] at h
    exact absurd h (by simp)
  · rw [if_neg hq] at h
    cases hc : convert qr ur ing.stock_unit with
    | error e =>
      simp only [hc] at h
      exact absurd h (by simp)
    | ok c =>
      simp only [hc] at h
      by_cases hneg : ing.current_stock - c < 0
      · rw [if_pos hneg] at h
        exact absurd h (by simp)
      · rw [if_neg hneg] at h
        injection h with h
        subst h
        exact not_lt.mp hneg

/-- C4: after a successful sale deduction every stored stock that started
nonnegative is still nonnegative; a successful stock-update addition and a
successful stock-update reversal leave a nonnegative stock; and a reversal
whose deduction would drive the stock negative is rejected with
InsufficientStockError, so no mutation ever stores a negative stock. -/
theorem stock_nonneg_invariant (item : MenuItem) (q : ℚ) (ings ings' : List Ingredient)
    (ing ing1 ing2 ing3 : Ingredient) (qa qr q3 : ℚ) (ua ur u3 : MUnit)
    (hstocks : ∀ i ∈ ings, 0 ≤ i.current_stock)
    (hing : 0 ≤ ing.current_stock)
    (hsale : applySaleToStock item q ings = Except.ok ings')
    (hupd : applyStockUpdate ing qa ua = Except.ok ing1)
    (hrev : reverseStockUpdate ing qr ur = Except.ok ing2)
    (hq3 : 0 ≤ q3) (hcompat3 : baseUnit u3 = baseUnit ing3.stock_unit)
    (hinsuf : ing3.current_stock < q3 * factor u3 / factor ing3.stock_unit) :
    (∀ i ∈ ings', 0 ≤ i.current_stock) ∧
    0 ≤ ing1.current_stock ∧
    0 ≤ ing2.current_stock ∧
    reverseStockUpdate ing3 q3 u3 = Except.error CostError.insufficientStock := by
  refine ⟨applyLines_nonneg item.ingredients q ings ings' hsale hstocks,
    applyStockUpdate_nonneg hupd hing, reverseStockUpdate_nonneg hrev, ?_⟩
  simp only [reverseStockUpdate, if_neg (not_lt.mpr hq3), convert_ok_of_compat _ hcompat3]
  rw [if_pos (sub_neg.mpr hinsuf)]

/-- Witness for C4: a latte sale of 3 against 5 litres of milk, a 500 ml
addition, a 1 litre reversal, and a rejected 5 litre reversal against a
single remaining litre. -/
theorem stock_nonneg_invariant_witness :
    (∀ i ∈ [(⟨1, "Milk", 22/5, MUnit.l, 1, MUnit.l, 50⟩ : Ingredient)],
      0 ≤ i.current_stock) ∧
    0 ≤ (⟨1, "Milk", 11/2, MUnit.l, 1, MUnit.l, 50⟩ : Ingredient).current_stock ∧
    0 ≤ (⟨1, "Milk", 4, MUnit.l, 1, MUnit.l, 50⟩ : Ingredient).current_stock ∧
    reverseStockUpdate ⟨1, "Milk", 1, MUnit.l, 1, MUnit.l, 50⟩ 5 MUnit.l =
      Except.error CostError.insufficientStock := by
  have h := stock_nonneg_invariant
    ⟨1, "Latte", "Hot Coffee", 60, [⟨1, 200, MUnit.ml⟩]⟩ 3
    [⟨1, "Milk", 5, MUnit.l, 1, MUnit.l, 50⟩]
    [⟨1, "Milk", 22/5, MUnit.l, 1, MUnit.l, 50⟩]
    ⟨1, "Milk", 5, MUnit.l, 1, MUnit.l, 50⟩
    ⟨1, "Milk", 11/2, MUnit.l, 1, MUnit.l, 50⟩
    ⟨1, "Milk", 4, MUnit.l, 1, MUnit.l, 50⟩
    ⟨1, "Milk", 1, MUnit.l, 1, MUnit.l, 50⟩
    500 1000 5 MUnit.ml MUnit.ml MUnit.l
    (by intro i hi; simp only [List.mem_singleton] at hi; subst hi; norm_num)
    (by norm_num)
    (by norm_num [applySaleToStock, applyLines, deductLine, findIngredient, convert,
      updateIngredient, baseUnit, factor, List.find?])
    (by norm_num [applyStockUpdate, convert, baseUnit, factor])
    (by norm_num [reverseStockUpdate, convert, baseUnit, factor])
    (by norm_num) rfl (by norm_num [factor])
  exact h

theorem updateIngredient_ids (ings : List Ingredient) (ingredientId : Nat) (v : ℚ) :
    (updateIngredient ings ingredientId v).map Ingredient.id = ings.map Ingredient.id := by
  unfold updateIngredient
  rw [List.map_map]
  apply List.map_congr_left
  intro i _
  simp only [Function.comp]
  by_cases h : (i.id == ingredientId) = true
  · rw [if_pos h]
  · rw [if_neg h]

theorem findIngredient_mem {ings : List Ingredient} {ingredientId : Nat} {ing : Ingredient}
    (h : findIngredient ings ingredientId = some ing) : ing ∈ ings ∧ ing.id = ingredientId := by
  unfold findIngredient at h
  refine ⟨List.mem_of_find?_eq_some h, ?_⟩
  have hp := List.find?_some h
  simpa using hp

theorem findIngredient_unique {ings : List Ingredient}
    (hnd : (ings.map Ingredient.id).Nodup) {ingredientId : Nat} {ing : Ingredient}
    (hf : findIngredient ings ingredientId = some ing) :
    ∀ j ∈ ings, j.id = ingredientId → j = ing := by
  intro j hj hjid
  obtain ⟨hm, hid⟩ := findIngredient_mem hf
  exact List.inj_on_of_nodup_map hnd hj hm (by rw [hjid, hid])

theorem deductLine_ok_inv {ings ings1 : List Ingredient} {line : RecipeLine} {q : ℚ}
    (h : deductLine ings line q = Except.ok ings1) :
    ∃ ing, findIngredient ings line.ingredient_id = some ing ∧
      baseUnit line.unit = baseUnit ing.stock_unit ∧
      ings1 = updateIngredient ings line.ingredient_id
        (ing.current_stock - lineDeduction line q ing.stock_unit) := by
  unfold deductLine at h
  cases hf : findIngredient ings line.ingredient_id with
  | none =>
    simp only [hf] at h
    exact absurd h (by simp)
  | some ing =>
    simp only [hf] at h
    cases hc : convert (line.quantity * q) line.unit ing.stock_unit with
    | error e =>
      simp only [hc] at h
      exact absurd h (by simp)
    | ok dq =>
      simp only [hc] at h
      obtain ⟨hdq, hcompat⟩ := convert_ok_inv hc
      by_cases hneg : ing.current_stock - dq < 0
      · rw [if_pos hneg] at h
        exact absurd h (by simp)
      · rw [if_neg hneg] at h
        injection h with h
        refine ⟨ing, rfl, hcompat, ?_⟩
        rw [← h, hdq]
        rfl

theorem applyLines_eq (q : ℚ) :
    ∀ (lines : List RecipeLine) (ings ings' : List Ingredient),
    (ings.map Ingredient.id).Nodup →
    applyLines lines q ings = Except.ok ings' →
    ings' = ings.map (fun i =>
      { i with current_stock := i.current_stock - sumDeductions lines q i.id i.stock_unit }) := by
  intro lines
  induction lines with
  | nil =>
    intro ings ings' _ h
    simp only [applyLines] at h
    injection h with h
    subst h
    have hi : ∀ i : Ingredient,
        ({ i with current_stock := i.current_stock - sumDeductions [] q i.id i.stock_unit }) = i := by
      intro i
      simp [sumDeductions]
    calc ings = ings.map id := (List.map_id ings).symm
    _ = ings.map (fun i =>
        { i with current_stock := i.current_stock - sumDeductions [] q i.id i.stock_unit }) :=
      List.map_congr_left (fun i _ => (hi i).symm)
  | cons line rest ih =>
    intro ings ings' hnd h
    simp only [applyLines] at h
    cases hd : deductLine ings line q with
    | error e =>
      simp only [hd] at h
      exact absurd h (by simp)
    | ok ings1 =>
      simp only [hd] at h
      obtain ⟨ing0, hf, hcompat, hupd⟩ := deductLine_ok_inv hd
      have hids : ings1.map Ingredient.id = ings.map Ingredient.id := by
        rw [hupd]
        exact updateIngredient_ids ings line.ingredient_id _
      have hnd1 : (ings1.map Ingredient.id).Nodup := by
        rw [hids]
        exact hnd
      have hih := ih ings1 ings' hnd1 h
      subst hih
      rw [hupd]
      unfold updateIngredient
      rw [List.map_map]
      apply List.map_congr_left
      intro i hi
      simp only [Function.comp]
      by_cases hid : i.id = line.ingredient_id
      · have hi0 : i = ing0 := findIngredient_unique hnd hf i hi hid
        rw [if_pos (beq_iff_eq.mpr hid)]
        subst hi0
        have hsum : sumDeductions (line :: rest) q i.id i.stock_unit =
            lineDeduction line q i.stock_unit + sumDeductions rest q i.id i.stock_unit := by
          unfold sumDeductions
          rw [List.filter_cons, if_pos (by simpa using hid.symm)]
          simp
        simp only [hsum]
        congr 1
        exact sub_sub _ _ _
      · rw [if_neg (by simpa using hid)]
        have hsum : sumDeductions (line :: rest) q i.id i.stock_unit =
            sumDeductions rest q i.id i.stock_unit := by
          unfold sumDeductions
          rw [List.filter_cons, if_neg (by simpa using fun he => hid he.symm)]
        rw [hsum]

/-- C3: a successful applySaleToStock over an id-distinct ingredient
collection updates every ingredient's stock to its old stock minus, for
each recipe line referencing it, line quantity times sale quantity
converted into the ingredient's stock unit; a sale of quantity 3 of a
single 200 ml line against an ingredient stocked in litres deducts
exactly 3/5 of a litre. -/
theorem applySale_deducts (item : MenuItem) (q : ℚ) (ings ings' : List Ingredient)
    (hnd : (ings.map Ingredient.id).Nodup)
    (hok : applySaleToStock item q ings = Except.ok ings') :
    ings' = ings.map (fun i =>
      { i with current_stock :=
          i.current_stock - sumDeductions item.ingredients q i.id i.stock_unit }) ∧
    sumDeductions [⟨1, 200, MUnit.ml⟩] 3 1 MUnit.l = 3 / 5 := by
  refine ⟨applyLines_eq q item.ingredients ings ings' hnd hok, ?_⟩
  norm_num [sumDeductions, lineDeduction, List.filter, factor]

/-- Witness for C3: the latte sale of quantity 3 takes the milk from 5
litres to 22/5 litres, a deduction of 3/5 of a litre. -/
theorem applySale_deducts_witness :
    [(⟨1, "Milk", 22/5, MUnit.l, 1, MUnit.l, 50⟩ : Ingredient)] =
      [(⟨1, "Milk", 5, MUnit.l, 1, MUnit.l, 50⟩ : Ingredient)].map (fun i =>
        { i with current_stock :=
            i.current_stock - sumDeductions [⟨1, 200, MUnit.ml⟩] 3 i.id i.stock_unit }) ∧
    sumDeductions [⟨1, 200, MUnit.ml⟩] 3 1 MUnit.l = 3 / 5 := by
  have h := applySale_deducts ⟨1, "Latte", "Hot Coffee", 60, [⟨1, 200, MUnit.ml⟩]⟩ 3
    [⟨1, "Milk", 5, MUnit.l, 1, MUnit.l, 50⟩] [⟨1, "Milk", 22/5, MUnit.l, 1, MUnit.l, 50⟩]
    (by simp)
    (by norm_num [applySaleToStock, applyLines, deductLine, findIngredient, convert,
      updateIngredient, baseUnit, factor, List.find?])
  exact h

theorem daysInMonth_pos (y m : Nat) : 0 < daysInMonth y m := by
  unfold daysInMonth
  split_ifs <;> norm_num

theorem numSlots_pos (p : Period) (ref : Timestamp) : 0 < numSlots p ref := by
  cases p with
  | daily => norm_num [numSlots]
  | weekly => norm_num [numSlots]
  | monthly => exact daysInMonth_pos ref.year ref.month

theorem slotStart_strictMono (p : Period) (ref : Timestamp) {i j : Nat} (hij : i < j) :
    slotStart p ref i < slotStart p ref j := by
  cases p with
  | daily =>
    simp only [slotStart]
    omega
  | weekly =>
    simp only [slotStart]
    omega
  | monthly =>
    simp only [slotStart, absDay]
    omega

/-- C9: for every period and reference date, bucketAggregate yields one
bucket per slot of the period's range with strictly increasing bucket
starts (chronological order); on an empty record set it yields the full
nonempty all-zero bucket sequence; and a record whose timestamp falls
outside the period's range contributes to no bucket. -/
theorem bucketAggregate_spec (records rs : List FinRecord) (p : Period) (ref : Timestamp)
    (r : FinRecord) (hout : recordSlot p ref r = none) :
    (bucketAggregate records p ref).length = numSlots p ref ∧
    0 < (bucketAggregate records p ref).length ∧
    bucketAggregate [] p ref =
      (List.range (numSlots p ref)).map (fun i => ⟨slotStart p ref i, 0, 0, 0⟩) ∧
    (bucketAggregate records p ref).Pairwise (fun a b => a.start < b.start) ∧
    bucketAggregate (r :: rs) p ref = bucketAggregate rs p ref := by
  refine ⟨?_, ?_, ?_, ?_, ?_⟩
  · simp [bucketAggregate]
  · simp only [bucketAggregate, List.length_map, List.length_range]
    exact numSlots_pos p ref
  · simp [bucketAggregate]
  · unfold bucketAggregate
    rw [List.pairwise_map]
    refine (List.pairwise_lt_range _).imp ?_
    intro i j hij
    exact slotStart_strictMono p ref hij
  · unfold bucketAggregate
    apply List.map_congr_left
    intro i _
    simp [List.filter_cons, hout]

/-- Witness for C9 at the daily period anchored at 2025-01-15, with a
record dated 2025-01-16 falling outside the range. -/
theorem bucketAggregate_spec_witness :
    (bucketAggregate [] Period.daily ⟨2025, 1, 15, 10⟩).length =
      numSlots Period.daily ⟨2025, 1, 15, 10⟩ ∧
    0 < (bucketAggregate [] Period.daily ⟨2025, 1, 15, 10⟩).length ∧
    bucketAggregate [] Period.daily ⟨2025, 1, 15, 10⟩ =
      (List.range (numSlots Period.daily ⟨2025, 1, 15, 10⟩)).map
        (fun i => ⟨slotStart Period.daily ⟨2025, 1, 15, 10⟩ i, 0, 0, 0⟩) ∧
    (bucketAggregate [] Period.daily ⟨2025, 1, 15, 10⟩).Pairwise
      (fun a b => a.start < b.start) ∧
    bucketAggregate [⟨⟨2025, 1, 16, 0⟩, 7, 2⟩] Period.daily ⟨2025, 1, 15, 10⟩ =
      bucketAggregate [] Period.daily ⟨2025, 1, 15, 10⟩ :=
  bucketAggregate_spec [] [] Period.daily ⟨2025, 1, 15, 10⟩ ⟨⟨2025, 1, 16, 0⟩, 7, 2⟩
    (by simp [recordSlot])

/-- C6 counterexample: the menu-item recipe form's unit table lacks the
bottles (and packs) entries, so for an ingredient stocked in bottles its
compatibility computation returns the empty list instead of the claimed
singleton class containing bottles. -/
theorem menu_compat_bottles_empty :
    menuGetCompatibleUnits [⟨1, "bottles"⟩] 1 = [] ∧
    (menuGetCompatibleUnits [⟨1, "bottles"⟩] 1).map UnitOpt.value ≠ ["bottles"] := by
  refine ⟨by decide, by decide⟩

/-- C6 amended: the inventory form computes, for each of its seven units,
exactly the units sharing that unit's base class ({g, kg}, {ml, l} and
the singletons pcs, bottles, packs); the menu-item recipe form's table
holds only g, kg, ml, l, pcs, for which it computes the same classes,
while an ingredient stocked in bottles or packs yields an empty list
there; the singleton-class units all carry conversion factor 1. -/
theorem compatibleUnits_classes :
    ((invGetCompatibleUnits "g").map UnitOpt.value = ["g", "kg"] ∧
     (invGetCompatibleUnits "kg").map UnitOpt.value = ["g", "kg"] ∧
     (invGetCompatibleUnits "ml").map UnitOpt.value = ["ml", "l"] ∧
     (invGetCompatibleUnits "l").map UnitOpt.value = ["ml", "l"] ∧
     (invGetCompatibleUnits "pcs").map UnitOpt.value = ["pcs"] ∧
     (invGetCompatibleUnits "bottles").map UnitOpt.value = ["bottles"] ∧
     (invGetCompatibleUnits "packs").map UnitOpt.value = ["packs"]) ∧
    ((menuGetCompatibleUnits [⟨1, "g"⟩] 1).map UnitOpt.value = ["g", "kg"] ∧
     (menuGetCompatibleUnits [⟨1, "kg"⟩] 1).map UnitOpt.value = ["g", "kg"] ∧
     (menuGetCompatibleUnits [⟨1, "ml"⟩] 1).map UnitOpt.value = ["ml", "l"] ∧
     (menuGetCompatibleUnits [⟨1, "l"⟩] 1).map UnitOpt.value = ["ml", "l"] ∧
     (menuGetCompatibleUnits [⟨1, "pcs"⟩] 1).map UnitOpt.value = ["pcs"] ∧
     (menuGetCompatibleUnits [⟨1, "bottles"⟩] 1).map UnitOpt.value = [] ∧
     (menuGetCompatibleUnits [⟨1, "packs"⟩] 1).map UnitOpt.value = []) ∧
    (factor MUnit.pcs = 1 ∧ factor MUnit.bottles = 1 ∧ factor MUnit.packs = 1) :=
  ⟨by decide, by decide, by norm_num [factor]⟩

/-- C10: the Inventory page's compatibility lookup returns its whole
seven-unit table for the empty unit symbol and for any symbol absent from
the table, and the MenuItems page's lookup returns its whole five-unit
table whenever the recipe line's ingredient id matches no loaded
ingredient, so units of every base class become selectable in those edge
cases. -/
theorem compatLookup_fallback (s : String) (ings : List MenuIngredient) (ingredientId : Nat)
    (hs : invUnits.find? (fun u => u.value == s) = none)
    (hi : ings.find? (fun i => i.id == ingredientId) = none) :
    invGetCompatibleUnits "" = invUnits ∧
    invGetCompatibleUnits s = invUnits ∧
    menuGetCompatibleUnits ings ingredientId = menuUnits ∧
    invUnits.length = 7 ∧ menuUnits.length = 5 := by
  refine ⟨by simp [invGetCompatibleUnits], ?_, ?_, rfl, rfl⟩
  · unfold invGetCompatibleUnits
    by_cases hse : s = ""
    · rw [if_pos hse]
    · rw [if_neg hse, hs]
  · unfold menuGetCompatibleUnits
    rw [hi]

/-- Witness for C10 at the unknown symbol cup and an empty ingredient
list. -/
theorem compatLookup_fallback_witness :
    invGetCompatibleUnits "" = invUnits ∧
    invGetCompatibleUnits "cup" = invUnits ∧
    menuGetCompatibleUnits [] 0 = menuUnits ∧
    invUnits.length = 7 ∧ menuUnits.length = 5 :=
  compatLookup_fallback "cup" [] 0 (by decide) rfl

end CoffeeShop
